import Mathlib

/-!
# iOS Backup Exporter (`main.go`): export engine, statistics and item state machine

A shallow embedding of the orchestration core of `main.go`:

* `stats` (lines 374-384) and `zipApp` (lines 322-372) as functions over the
  loaded record list, with the collaborators (`db.FileReader`, `zip.Writer`,
  `io.Copy`, `path.Join`) supplied as an environment of outcomes;
* the closures sent on `updateChan` as a data type `Cmd` with an interpreter;
* the click handlers of `backupState.Layout` and `backupItem.Layout`;
* the event loop of `run` as a step function over a system state that holds
  the application state and the goroutines started so far.

Go `error` values are `Option GoError` (`none` is `nil`).  The Go `int`
counters `files` and `count` only count records of an in-memory slice, so they
are natural numbers; `totalSize` is a `uint64` and wraps modulo `2 ^ 64`.
-/

namespace Ibe

/-! ## Data model -/

/-- A Go `error` value that is not `nil`, identified by its message. -/
abbrev GoError := String

/-- One `backup.Record` as read by `main.go`: `Domain`, `Path`, `Length` (a `uint64`). -/
structure Record where
  Domain : String
  Path : String
  Length : Nat
deriving DecidableEq, Repr

/-- The constant `domainPrefix` (line 60). -/
def domainPrefix : String := "AppDomain-"

/-- The initial value of the global variable `domain` (line 62). -/
def initialDomain : String := "com.tencent.xin"

/-- Reduction of a natural number to the range of a Go `uint64`. -/
def uint64 (n : Nat) : Nat := n % 2 ^ 64

/-! ## `stats` (lines 374-384) -/

/-- The `for _, rec := range db.Records` loop of `stats`, carrying `(files, size)`. -/
def statsLoop (domain : String) : List Record → Nat × Nat → Nat × Nat
  | [], acc => acc
  | rc :: rest, (files, size) =>
    if rc.Domain != domain then
      statsLoop domain rest (files, size)
    else
      statsLoop domain rest (files + 1, uint64 (size + rc.Length))

/-- The function `stats(db, _domain)`; `db` is the record list `db.Records`. -/
def stats (db : List Record) (_domain : String) : Nat × Nat :=
  statsLoop (domainPrefix ++ _domain) db (0, 0)

/-! ## `zipApp` (lines 322-372) -/

/-- A `zip.FileHeader` as filled in by `zipApp`: entry name and method. -/
structure FileHeader where
  Name : String
  Method : Nat
deriving DecidableEq, Repr

/-- The constant `zip.Store` (method 0, no compression). -/
def zipStore : Nat := 0

/-- Outcomes of the collaborators that `zipApp` calls.  Calls made for a record
are keyed by the position of the record in `db.Records`.

* `FileReader i rc` is the error of `db.FileReader(rec)` (`none`: the stream opened);
* `CreateHeader i h` is the error of `zf.CreateHeader(header)`;
* `Copy i rc` is the byte count returned by `io.Copy(w, r)`;
* `Close` is the error of `zf.Close()`;
* `Join` is `path.Join` on two elements. -/
structure ZipEnv where
  FileReader : Nat → Record → Option GoError
  CreateHeader : Nat → FileHeader → Option GoError
  Copy : Nat → Record → Nat
  Close : Option GoError
  Join : String → String → String

/-- The local variables of `zipApp` together with its observable effects:
`entries` are the headers for which `zf.CreateHeader` succeeded, in order, and
`sent` are the values of `count` at which a progress closure was sent. -/
structure ZipState where
  entries : List FileHeader
  total : Nat
  count : Nat
  sent : List Nat
deriving DecidableEq, Repr

/-- What a call of `zipApp` leaves behind: the returned error and the final state. -/
structure ZipResult where
  err : Option GoError
  st : ZipState
deriving DecidableEq, Repr

/-- The `for _, rec := range db.Records` loop of `zipApp`, from the record at
position `i` on.  A failing `zf.CreateHeader` returns its error at once.  A
send on `updateChan` is recorded in `sent`; it completes when the event loop
receives it. -/
def zipLoop (env : ZipEnv) (domain name : String) :
    Nat → List Record → ZipState → Option GoError × ZipState
  | _, [], st => (none, st)
  | i, rc :: rest, st =>
    if rc.Domain != domain then
      zipLoop env domain name (i + 1) rest st
    else if rc.Length == 0 then
      zipLoop env domain name (i + 1) rest st
    else
      match env.FileReader i rc with
      | some _ => zipLoop env domain name (i + 1) rest st
      | none =>
        let header : FileHeader := { Name := env.Join name rc.Path, Method := zipStore }
        match env.CreateHeader i header with
        | some e => (some e, st)
        | none =>
          let count := st.count + 1
          zipLoop env domain name (i + 1) rest
            { entries := st.entries ++ [header]
              total := st.total + env.Copy i rc
              count := count
              sent := if count % 500 == 0 then st.sent ++ [count] else st.sent }

/-- The method `zipApp(_domain, zipFile, name)` run on the record list `db`. -/
def zipApp (env : ZipEnv) (db : List Record) (_domain name : String) : ZipResult :=
  match zipLoop env (domainPrefix ++ _domain) name 0 db
      { entries := [], total := 0, count := 0, sent := [] } with
  | (some e, st) => { err := some e, st := st }
  | (none, st) =>
    match env.Close with
    | some e => { err := some e, st := st }
    | none => { err := none, st := st }

/-- The records that `zipApp` is meant to write: with their positions, those
of domain `domainPrefix ++ _domain`, of non-zero length, whose stream opens. -/
def selected (env : ZipEnv) (db : List Record) (_domain : String) : List (Nat × Record) :=
  db.enum.filter fun p =>
    decide (p.2.Domain = domainPrefix ++ _domain) && decide (p.2.Length ≠ 0)
      && decide (env.FileReader p.1 p.2 = none)

/-! ## Application state (lines 50-62 and 147-171) -/

/-- The fields of `backupItem` that the program logic reads or writes.
`Records` stands for `DB.Records`; the widget fields are inputs of the handlers. -/
structure backupItem where
  Records : List Record
  IsEncrypted : Bool
  files : Nat
  totalSize : Nat
  passwordError : Option GoError
  saving : Bool
  savingPercent : Nat
  saved : Bool
  savingError : Option GoError
  loaded : Bool
  loading : Bool
  loadingError : Option GoError
deriving DecidableEq, Repr

/-- The item built by `&backupItem{Backup: b, updateChan: updateChan}` (line 416):
every other field has its zero value. -/
def newItem : backupItem :=
  { Records := [], IsEncrypted := false, files := 0, totalSize := 0,
    passwordError := none, saving := false, savingPercent := 0, saved := false,
    savingError := none, loaded := false, loading := false, loadingError := none }

/-- The fields `loading`, `err`, `backups` of `backupState`. -/
structure backupState where
  loading : Bool
  err : Option GoError
  backups : List backupItem
deriving DecidableEq, Repr

/-- Everything the event loop owns: the `backupState` of `run` and the global
variable `domain`. -/
structure App where
  bak : backupState
  domain : String
deriving DecidableEq, Repr

/-- Result of `b.DB.Load()`: an error, or the record list found in `DB.Records`
afterwards.  The list is installed in the model when the completion closure
runs, the first point at which the event loop reads `b.DB`. -/
inductive LoadOutcome where
  | failed (err : GoError)
  | ok (records : List Record)
deriving DecidableEq, Repr

/-- What the enumeration goroutine finds for one backup (lines 419-437). -/
inductive OpenOutcome where
  | openFailed (err : GoError)
  | encrypted
  | loadFailed (err : GoError)
  | loaded (records : List Record)
deriving DecidableEq, Repr

/-! ## The closures sent on `updateChan` -/

/-- Closure of lines 192-196 (export start). -/
def backupItem.exportStart (b : backupItem) : backupItem :=
  { b with savingError := none, saved := false, saving := true }

/-- Closure of lines 200-207 (export completion), `err` being the result of `zipApp`. -/
def backupItem.exportDone (err : Option GoError) (b : backupItem) : backupItem :=
  match err with
  | some e => { b with savingError := some e }
  | none => { b with saving := false, saved := true }

/-- Closure of lines 359-361 (export progress) for the value `count` it reads.
The Go integer division panics when `bi.files` is zero: the result is `none`. -/
def backupItem.exportProgress (count : Nat) (b : backupItem) : Option backupItem :=
  if b.files = 0 then none else some { b with savingPercent := count * 100 / b.files }

/-- Closure of lines 223-227 (load start). -/
def backupItem.loadStart (b : backupItem) : backupItem :=
  { b with loading := true, loadingError := none, loaded := false }

/-- Closure of lines 230-238 (load completion); `domain` is the global variable
as read when the closure runs. -/
def backupItem.loadDone (res : LoadOutcome) (domain : String) (b : backupItem) : backupItem :=
  match res with
  | .failed e => { b with loadingError := some e }
  | .ok records =>
    { b with Records := records, loading := false, loaded := true,
             files := (stats records domain).1, totalSize := (stats records domain).2 }

/-- The closures that the goroutines of one item send. -/
inductive ItemCmd where
  | loadStart
  | loadDone (res : LoadOutcome)
  | exportStart
  | exportProgress (count : Nat)
  | exportDone (err : Option GoError)
deriving DecidableEq, Repr

/-- Running an item closure; `none` is a runtime panic. -/
def ItemCmd.run (c : ItemCmd) (domain : String) (b : backupItem) : Option backupItem :=
  match c with
  | .loadStart => some b.loadStart
  | .loadDone res => some (b.loadDone res domain)
  | .exportStart => some b.exportStart
  | .exportProgress count => b.exportProgress count
  | .exportDone err => some (b.exportDone err)

/-- The closures of the enumeration goroutine: lines 407-410 and 440-454. -/
inductive EnumCmd where
  | failed (err : GoError)
  | result (bis : List backupItem)
deriving DecidableEq, Repr

/-- Running a closure of the enumeration goroutine. -/
def EnumCmd.run (c : EnumCmd) (a : App) : App :=
  match c with
  | .failed e => { a with bak := { a.bak with loading := false, err := some e } }
  | .result bis => { a with bak := { a.bak with backups := bis, loading := false } }

/-- Update through the pointer to the `i`-th item of `bak.backups`. -/
def updateItem (f : backupItem → Option backupItem) :
    Nat → List backupItem → Option (List backupItem)
  | _, [] => some []
  | 0, b :: bs => (f b).map (· :: bs)
  | i + 1, b :: bs => (updateItem f i bs).map (b :: ·)

/-- An item closure run by the event loop on the `i`-th item. -/
def App.runItemCmd (a : App) (i : Nat) (c : ItemCmd) : Option App :=
  (updateItem (c.run a.domain) i a.bak.backups).map fun bs =>
    { a with bak := { a.bak with backups := bs } }

/-! ## Click handlers -/

/-- Lines 67-74: the handler of the "Change App" button, `text` being the
content of the domain editor. -/
def setDomain (text : String) (a : App) : App :=
  { domain := text
    bak := { a.bak with backups := a.bak.backups.map fun bi =>
      if bi.loaded then
        { bi with files := (stats bi.Records text).1, totalSize := (stats bi.Records text).2 }
      else bi } }

/-- One step of a goroutine started by a handler of `backupItem.Layout`:
a send on `updateChan`, or the call `b.zipApp(domain, file, name)` of line 198. -/
inductive Action where
  | send (c : ItemCmd)
  | zip (name : String) (env : ZipEnv)

/-- A goroutine working for the item at position `item`: its remaining steps. -/
structure Worker where
  item : Nat
  script : List Action

/-- Lines 178-213: the export request.  `clicked` is `b.exportBtn.Clicked()`,
`createFile` the error of `expl.CreateFile(fname)` and `name` the folder name
of lines 179-183.  The result is the goroutine started, if any; a goroutine
whose file creation failed returns at once. -/
def exportRequest (i : Nat) (b : backupItem) (clicked : Bool) (createFile : Option GoError)
    (name : String) (env : ZipEnv) : Option Worker :=
  if b.loaded && clicked then
    match createFile with
    | some _ => some { item := i, script := [] }
    | none => some { item := i, script := [.send .exportStart, .zip name env] }
  else none

/-- Lines 215-242: the unlock request.  `clicked` is `b.setPasswordBtn.Clicked()`,
`pass` the editor text, `setPassword` the error of `b.DB.SetPassword(pass)` and
`load` the result that `b.DB.Load()` will have in the goroutine. -/
def unlockRequest (i : Nat) (b : backupItem) (clicked : Bool) (pass : String)
    (setPassword : Option GoError) (load : LoadOutcome) : backupItem × Option Worker :=
  if clicked then
    let b1 := { b with passwordError := none }
    if pass != "" then
      match setPassword with
      | some e => ({ b1 with passwordError := some e }, none)
      | none => (b1, some { item := i, script := [.send .loadStart, .send (.loadDone load)] })
    else (b1, none)
  else (b, none)

/-- Lines 97-100: the "Change App" button is drawn enabled. -/
def changeAppEnabled (a : App) (text : String) : Bool :=
  !(a.bak.loading || text == "" || text == a.domain)

/-- Lines 116-136: the items are laid out. -/
def itemsShown (a : App) : Bool :=
  a.bak.err.isNone && !a.bak.loading

/-- Lines 251-265: the Export button of an item is laid out and not disabled. -/
def exportEnabled (b : backupItem) : Bool :=
  b.loadingError.isNone && b.loaded && decide (0 < b.files) && !b.saving

/-- Lines 251-299: the Set Password button of an item is laid out and not disabled. -/
def setPasswordEnabled (b : backupItem) (text : String) : Bool :=
  b.loadingError.isNone && !b.loaded && b.IsEncrypted
    && !(b.loading || b.loaded || text == "")

/-- Load status of an item as `backupItem.Layout` displays it (lines 251-311). -/
inductive LoadStatus where
  | NotLoaded
  | Loading
  | Loaded
  | LoadFailed (err : GoError)
deriving DecidableEq, Repr

/-- The branch order of lines 251-311: error first, then loaded, then loading. -/
def loadStatus (b : backupItem) : LoadStatus :=
  match b.loadingError with
  | some e => .LoadFailed e
  | none => if b.loaded then .Loaded else if b.loading then .Loading else .NotLoaded

/-- Export status of an item as `backupItem.Layout` displays it (lines 267-273). -/
inductive ExportStatus where
  | Idle
  | Exporting (percent : Nat)
  | Exported
  | ExportFailed (err : GoError)
deriving DecidableEq, Repr

/-- The branch order of lines 267-273: saving first, then saved, then the error. -/
def exportStatus (b : backupItem) : ExportStatus :=
  if b.saving then .Exporting b.savingPercent
  else if b.saved then .Exported
  else match b.savingError with
    | some e => .ExportFailed e
    | none => .Idle

/-! ## The event loop of `run` (lines 386-477) -/

/-- Lines 416-437: the item that the enumeration goroutine builds for one
backup; `domain` is the global variable as the goroutine reads it. -/
def discover (o : OpenOutcome) (domain : String) : backupItem :=
  match o with
  | .openFailed e => { newItem with loadingError := some e }
  | .encrypted => { newItem with IsEncrypted := true }
  | .loadFailed e => { newItem with loadingError := some e }
  | .loaded records =>
    { newItem with Records := records, files := (stats records domain).1,
                   totalSize := (stats records domain).2, loaded := true }

/-- The enumeration goroutine of lines 404-455. -/
inductive EnumWorker where
  | start
  | building (bis : List backupItem)
  | pending (c : EnumCmd)
  | done
deriving DecidableEq, Repr

/-- The event loop's state together with the goroutines that feed it. -/
structure Sys where
  app : App
  enumerator : EnumWorker
  workers : List Worker

/-- What can happen next.  A click event is a `FrameEvent` in which the
button reports a click; a click is registered only on a button that is drawn
enabled.  The other events are steps of goroutines; a step that is a send on
the unbuffered `updateChan` is the receive of the event loop (lines 460-464). -/
inductive Event where
  | enumerate (err : Option GoError)
  | enumOpen (o : OpenOutcome)
  | enumFinish
  | enumDeliver
  | clickChangeApp (text : String)
  | clickExport (i : Nat) (createFile : Option GoError) (name : String) (env : ZipEnv)
  | clickSetPassword (i : Nat) (pass : String) (setPassword : Option GoError)
      (load : LoadOutcome)
  | workerStep (w : Nat)

/-- Result of an event: the next state, `refused` when the event cannot occur
in the state, `crashed` when a closure panics inside the event loop. -/
inductive Outcome where
  | ok (s : Sys)
  | refused
  | crashed

/-- Replace the script of the `w`-th goroutine. -/
def setScript (ws : List Worker) (w : Nat) (script : List Action) : List Worker :=
  match ws[w]? with
  | some wk => ws.set w { wk with script := script }
  | none => ws

/-- The sends that a call of `zipApp` with result `r` performs, followed by the
completion closure of line 200.  The progress closure reads the variable
`count` when the event loop runs it; the goroutine is then between that send
and its next one, and the model takes the value `count` had at the send. -/
def zipSends (r : ZipResult) : List Action :=
  r.st.sent.map (fun c => Action.send (.exportProgress c)) ++ [.send (.exportDone r.err)]

/-- One event. -/
def step (ev : Event) (s : Sys) : Outcome :=
  match ev with
  | .enumerate err =>
    match s.enumerator with
    | .start =>
      match err with
      | some e => .ok { s with enumerator := .pending (.failed e) }
      | none => .ok { s with enumerator := .building [] }
    | _ => .refused
  | .enumOpen o =>
    match s.enumerator with
    | .building bis => .ok { s with enumerator := .building (bis ++ [discover o s.app.domain]) }
    | _ => .refused
  | .enumFinish =>
    match s.enumerator with
    | .building bis => .ok { s with enumerator := .pending (.result bis) }
    | _ => .refused
  | .enumDeliver =>
    match s.enumerator with
    | .pending c => .ok { s with app := c.run s.app, enumerator := .done }
    | _ => .refused
  | .clickChangeApp text =>
    if changeAppEnabled s.app text then .ok { s with app := setDomain text s.app }
    else .refused
  | .clickExport i createFile name env =>
    match s.app.bak.backups[i]? with
    | none => .refused
    | some b =>
      if itemsShown s.app && exportEnabled b then
        match exportRequest i b true createFile name env with
        | some wk => .ok { s with workers := s.workers ++ [wk] }
        | none => .ok s
      else .refused
  | .clickSetPassword i pass setPassword load =>
    match s.app.bak.backups[i]? with
    | none => .refused
    | some b =>
      if itemsShown s.app && setPasswordEnabled b pass then
        let r := unlockRequest i b true pass setPassword load
        let app : App :=
          { s.app with bak := { s.app.bak with backups := s.app.bak.backups.set i r.1 } }
        match r.2 with
        | some wk => .ok { s with app := app, workers := s.workers ++ [wk] }
        | none => .ok { s with app := app }
      else .refused
  | .workerStep w =>
    match s.workers[w]? with
    | none => .refused
    | some wk =>
      match wk.script with
      | [] => .refused
      | .send c :: rest =>
        match s.app.runItemCmd wk.item c with
        | some a => .ok { s with app := a, workers := setScript s.workers w rest }
        | none => .crashed
      | .zip name env :: rest =>
        let db := (s.app.bak.backups[wk.item]?.map (·.Records)).getD []
        let r := zipApp env db s.app.domain name
        .ok { s with workers := setScript s.workers w (zipSends r ++ rest) }

/-- A sequence of events, stopping at the first that is refused or crashes. -/
def exec : List Event → Sys → Outcome
  | [], s => .ok s
  | ev :: rest, s =>
    match step ev s with
    | .ok s1 => exec rest s1
    | .refused => .refused
    | .crashed => .crashed

/-- The state in which `run` enters its loop (lines 387-404): `bak.loading` is
set, no backups yet, the enumeration goroutine just started. -/
def initial : Sys :=
  { app := { bak := { loading := true, err := none, backups := [] }, domain := initialDomain }
    enumerator := .start
    workers := [] }

/-- The application state of an outcome, when there is one. -/
def Outcome.app? : Outcome → Option App
  | .ok s => some s.app
  | _ => none

/-- The item at position `i` after an outcome, when there is one. -/
def Outcome.item? (o : Outcome) (i : Nat) : Option backupItem :=
  o.app?.bind fun a => a.bak.backups[i]?

/-- Whether the outcome is a panic inside the event loop. -/
def Outcome.isCrashed : Outcome → Bool
  | .crashed => true
  | _ => false

/-- Whether the event could not occur. -/
def Outcome.isRefused : Outcome → Bool
  | .refused => true
  | _ => false

/-- Every loaded item carries the statistics of its records for `domain`. -/
def StatsOK (domain : String) (bs : List backupItem) : Prop :=
  ∀ b ∈ bs, b.loaded = true → (b.files, b.totalSize) = stats b.Records domain

/-- Invariant of the enumeration goroutine: until its closure has run,
`bak.loading` is set and the items it holds carry statistics for the current
value of `domain`. -/
def EnumOK (s : Sys) : Prop :=
  match s.enumerator with
  | .start => s.app.bak.loading = true ∧ s.app.bak.backups = []
  | .building bis => s.app.bak.loading = true ∧ s.app.bak.backups = [] ∧ StatsOK s.app.domain bis
  | .pending (.result bis) =>
    s.app.bak.loading = true ∧ s.app.bak.backups = [] ∧ StatsOK s.app.domain bis
  | .pending (.failed _) => s.app.bak.loading = true ∧ s.app.bak.backups = []
  | .done => True

/-! ## Sample data -/

/-- Collaborators that never fail; `Join` is `path.Join` on two clean relative
elements. -/
def okEnv : ZipEnv :=
  { FileReader := fun _ _ => none
    CreateHeader := fun _ _ => none
    Copy := fun _ rc => rc.Length
    Close := none
    Join := fun a b => a ++ "/" ++ b }

/-- Collaborators for which the content stream of every third record cannot be opened. -/
def thirdFailsEnv : ZipEnv :=
  { okEnv with FileReader := fun i _ => if i % 3 = 2 then some "open failed" else none }

/-- Collaborators for which `zf.CreateHeader` fails. -/
def headerFailsEnv : ZipEnv :=
  { okEnv with CreateHeader := fun _ _ => some "disk full" }

/-- Six records of the application `com.foo`, one of them empty, and one of `com.bar`. -/
def sampleRecords : List Record :=
  [ ⟨"AppDomain-com.foo", "a.txt", 10⟩, ⟨"AppDomain-com.bar", "b.txt", 5⟩,
    ⟨"AppDomain-com.foo", "c.txt", 7⟩, ⟨"AppDomain-com.foo", "d.txt", 3⟩,
    ⟨"AppDomain-com.foo", "dir", 0⟩, ⟨"AppDomain-com.foo", "e.txt", 1⟩,
    ⟨"AppDomain-com.foo", "f.txt", 2⟩ ]

/-- `n` one-byte records of the application selected at start-up. -/
def xinRecords (n : Nat) : List Record :=
  List.replicate n ⟨"AppDomain-com.tencent.xin", "f", 1⟩

/-- Discovery of one unencrypted backup with the records `db`, up to the first frame. -/
def discoverLoaded (db : List Record) : List Event :=
  [.enumerate none, .enumOpen (.loaded db), .enumFinish, .enumDeliver]

/-- An export of a loaded backup in which `zf.CreateHeader` fails on the first
record: request, start closure, `zipApp`, completion closure. -/
def failedExport : List Event :=
  discoverLoaded (xinRecords 1) ++
    [.clickExport 0 none "bk" headerFailsEnv, .workerStep 0, .workerStep 0, .workerStep 0]

/-- Two accepted unlock requests before the first load-start closure is
received; the first load completes, an export starts, then the load-start
closure of the second goroutine is received. -/
def doubleUnlock : List Event :=
  [.enumerate none, .enumOpen .encrypted, .enumFinish, .enumDeliver,
   .clickSetPassword 0 "pw" none (.ok (xinRecords 1)),
   .clickSetPassword 0 "pw" none (.ok (xinRecords 1)),
   .workerStep 0, .workerStep 0,
   .clickExport 0 none "bk" okEnv, .workerStep 2,
   .workerStep 1]

/-- An export of 500 records during which the filter is changed to an
application without records, up to the change. -/
def filterChangeDuringExport : List Event :=
  discoverLoaded (xinRecords 500) ++
    [.clickExport 0 none "bk" okEnv, .workerStep 0, .workerStep 0,
     .clickChangeApp "com.other"]

/-- An export of 1500 records during which the filter is changed to an
application with one record and back: the events up to the first, second and
third progress closure. -/
def progressRun : List Event :=
  discoverLoaded (xinRecords 1500 ++ [⟨"AppDomain-com.other", "g", 1⟩]) ++
    [.clickExport 0 none "bk" okEnv, .workerStep 0, .workerStep 0, .workerStep 0,
     .clickChangeApp "com.other", .workerStep 0,
     .clickChangeApp "com.tencent.xin", .workerStep 0]

/-- An encrypted item as discovery leaves it. -/
def lockedItem : backupItem := discover .encrypted initialDomain

/-- The state after discovery of one backup with `sampleRecords` and a change
of the filter to `com.foo`. -/
def sampleState : Sys :=
  { app :=
      { bak :=
          { loading := false, err := none
            backups := [{ newItem with Records := sampleRecords, files := 6, totalSize := 23,
                                       loaded := true }] }
        domain := "com.foo" }
    enumerator := .done
    workers := [] }

/-- An export that has started and not finished: request and start closure. -/
def runningExport : List Event :=
  discoverLoaded (xinRecords 1) ++ [.clickExport 0 none "bk" okEnv, .workerStep 0]

/-- The state in which an export of one record has started and not finished. -/
def runningState : Sys :=
  { app :=
      { bak :=
          { loading := false, err := none
            backups := [{ newItem with Records := xinRecords 1, files := 1, totalSize := 1,
                                       loaded := true, saving := true }] }
        domain := initialDomain }
    enumerator := .done
    workers := [{ item := 0, script := [.zip "bk" okEnv] }] }

/-- The state after a successful export of one record. -/
def exportedState : Sys :=
  { app :=
      { bak :=
          { loading := false, err := none
            backups := [{ newItem with Records := xinRecords 1, files := 1, totalSize := 1,
                                       loaded := true, saved := true }] }
        domain := initialDomain }
    enumerator := .done
    workers := [{ item := 0, script := [] }] }

/-- A complete export without failure: request, start closure, `zipApp`,
completion closure. -/
def successfulExport : List Event :=
  runningExport ++ [.workerStep 0, .workerStep 0]

/-! ## Theorems -/

/-- The file counter of the `stats` loop grows by the number of records of the domain. -/
theorem statsLoop_fst (domain : String) (db : List Record) (acc : Nat × Nat) :
    (statsLoop domain db acc).1 =
      acc.1 + (db.filter fun r => decide (r.Domain = domain)).length := by
  induction db generalizing acc with
  | nil => obtain ⟨a, b⟩ := acc; simp [statsLoop]
  | cons rc rest ih =>
    obtain ⟨a, b⟩ := acc
    by_cases h : rc.Domain = domain
    · simp [statsLoop, h, ih]; omega
    · have hb : (rc.Domain != domain) = true := by simpa using h
      simp [statsLoop, hb, ih, h]

/-- The size accumulator of the `stats` loop is the sum of the lengths of the
records of the domain, reduced modulo `2 ^ 64`. -/
theorem statsLoop_snd (domain : String) (db : List Record) (acc : Nat × Nat)
    (hacc : acc.2 < 2 ^ 64) :
    (statsLoop domain db acc).2 =
      (acc.2 + ((db.filter fun r => decide (r.Domain = domain)).map Record.Length).sum)
        % 2 ^ 64 := by
  induction db generalizing acc with
  | nil =>
    obtain ⟨a, b⟩ := acc
    simp only [statsLoop, List.filter_nil, List.map_nil, List.sum_nil, Nat.add_zero]
    exact (Nat.mod_eq_of_lt hacc).symm
  | cons rc rest ih =>
    obtain ⟨a, b⟩ := acc
    by_cases h : rc.Domain = domain
    · have hlt : uint64 (b + rc.Length) < 2 ^ 64 := Nat.mod_lt _ (by norm_num)
      have := ih (a + 1, uint64 (b + rc.Length)) hlt
      simp only [statsLoop, h, bne_self_eq_false, Bool.false_eq_true, if_false, this,
        decide_True, List.filter_cons_of_pos, List.map_cons, List.sum_cons]
      simp only [uint64, Nat.mod_add_mod, Nat.add_assoc]
    · have hb : (rc.Domain != domain) = true := by simpa using h
      simp only [statsLoop, hb, if_true]
      rw [ih (a, b) hacc]
      simp [h]

/-- After the filter-change handler every loaded item is recomputed for the new filter. -/
theorem statsOK_setDomain (V : String) (a : App) :
    StatsOK V (setDomain V a).bak.backups := by
  intro b hb hl
  simp only [setDomain, List.mem_map] at hb
  obtain ⟨b0, _, hb0⟩ := hb
  by_cases h0 : b0.loaded = true
  · simp only [h0, if_true] at hb0
    subst hb0
    rfl
  · simp only [h0] at hb0
    subst hb0
    exact absurd hl h0

/-- No closure of an item goroutine leaves a loaded item with stale statistics. -/
theorem itemCmd_keeps_stats (c : ItemCmd) (d : String) (b b1 : backupItem)
    (hrun : c.run d b = some b1)
    (hb : b.loaded = true → (b.files, b.totalSize) = stats b.Records d) :
    b1.loaded = true → (b1.files, b1.totalSize) = stats b1.Records d := by
  cases c with
  | loadStart =>
    simp only [ItemCmd.run, Option.some.injEq] at hrun
    subst hrun
    intro h
    simp [backupItem.loadStart] at h
  | loadDone res =>
    simp only [ItemCmd.run, Option.some.injEq] at hrun
    subst hrun
    cases res with
    | failed e => exact hb
    | ok records => intro _; rfl
  | exportStart =>
    simp only [ItemCmd.run, Option.some.injEq] at hrun
    subst hrun
    exact hb
  | exportProgress count =>
    simp only [ItemCmd.run, backupItem.exportProgress] at hrun
    split at hrun
    · exact absurd hrun (by simp)
    · simp only [Option.some.injEq] at hrun
      subst hrun
      exact hb
  | exportDone err =>
    simp only [ItemCmd.run, Option.some.injEq] at hrun
    subst hrun
    cases err <;> exact hb

/-- Updating one item by a function that keeps the statistics current keeps the list current. -/
theorem statsOK_updateItem (f : backupItem → Option backupItem) (d : String)
    (hf : ∀ b b1, f b = some b1 →
      (b.loaded = true → (b.files, b.totalSize) = stats b.Records d) →
      (b1.loaded = true → (b1.files, b1.totalSize) = stats b1.Records d))
    (i : Nat) (bs bs1 : List backupItem) (hu : updateItem f i bs = some bs1)
    (hbs : StatsOK d bs) : StatsOK d bs1 := by
  induction bs generalizing i bs1 with
  | nil =>
    simp only [updateItem, Option.some.injEq] at hu
    subst hu
    exact hbs
  | cons b rest ih =>
    cases i with
    | zero =>
      simp only [updateItem, Option.map_eq_some'] at hu
      obtain ⟨b1, hb1, rfl⟩ := hu
      intro x hx
      rcases List.mem_cons.mp hx with rfl | hx
      · exact hf b x hb1 (hbs b (List.mem_cons_self _ _))
      · exact hbs x (List.mem_cons_of_mem _ hx)
    | succ j =>
      simp only [updateItem, Option.map_eq_some'] at hu
      obtain ⟨r1, hr1, rfl⟩ := hu
      have hrest : StatsOK d rest := fun x hx => hbs x (List.mem_cons_of_mem _ hx)
      have := ih j r1 hr1 hrest
      intro x hx
      rcases List.mem_cons.mp hx with rfl | hx
      · exact hbs x (List.mem_cons_self _ _)
      · exact this x hx

/-- Replacing one item by an item with current statistics keeps the list current. -/
theorem statsOK_set (d : String) (bs : List backupItem) (i : Nat) (b1 : backupItem)
    (hbs : StatsOK d bs)
    (hb1 : b1.loaded = true → (b1.files, b1.totalSize) = stats b1.Records d) :
    StatsOK d (bs.set i b1) := by
  intro x hx
  rcases List.mem_or_eq_of_mem_set hx with h | rfl
  · exact hbs x h
  · exact hb1

/-- The unlock handler touches `passwordError` only. -/
theorem unlockRequest_keeps (i : Nat) (b : backupItem) (clicked : Bool) (pass : String)
    (sp : Option GoError) (load : LoadOutcome) :
    (unlockRequest i b clicked pass sp load).1.loaded = b.loaded ∧
    (unlockRequest i b clicked pass sp load).1.files = b.files ∧
    (unlockRequest i b clicked pass sp load).1.totalSize = b.totalSize ∧
    (unlockRequest i b clicked pass sp load).1.Records = b.Records := by
  unfold unlockRequest
  cases clicked <;> cases sp <;> by_cases hp : pass = "" <;> simp [hp]

/-- Every event keeps the statistics of loaded items current and the invariant
of the enumeration goroutine. -/
theorem step_keeps_inv (ev : Event) (s s1 : Sys) (hstep : step ev s = .ok s1)
    (hs : StatsOK s.app.domain s.app.bak.backups) (he : EnumOK s) :
    StatsOK s1.app.domain s1.app.bak.backups ∧ EnumOK s1 := by
  cases ev with
  | enumerate err =>
    simp only [step] at hstep
    cases hen : s.enumerator <;> simp only [hen] at hstep <;> try (simp at hstep)
    simp only [EnumOK, hen] at he
    cases err with
    | some e =>
      simp only [Outcome.ok.injEq] at hstep
      subst hstep
      exact ⟨hs, by simpa [EnumOK] using he⟩
    | none =>
      simp only [Outcome.ok.injEq] at hstep
      subst hstep
      refine ⟨hs, ?_⟩
      simp only [EnumOK]
      exact ⟨he.1, he.2, fun b hb => absurd hb (List.not_mem_nil b)⟩
  | enumOpen o =>
    simp only [step] at hstep
    cases hen : s.enumerator <;> simp only [hen] at hstep <;> try (simp at hstep; done)
    rename_i bis
    simp only [EnumOK, hen] at he
    simp only [Outcome.ok.injEq] at hstep
    subst hstep
    refine ⟨hs, ?_⟩
    simp only [EnumOK]
    refine ⟨he.1, he.2.1, ?_⟩
    intro b hb hl
    rcases List.mem_append.mp hb with h | h
    · exact he.2.2 b h hl
    · simp only [List.mem_singleton] at h
      subst h
      cases o <;> simp [discover, newItem] at hl ⊢
  | enumFinish =>
    simp only [step] at hstep
    cases hen : s.enumerator <;> simp only [hen] at hstep <;> try (simp at hstep; done)
    simp only [EnumOK, hen] at he
    simp only [Outcome.ok.injEq] at hstep
    subst hstep
    exact ⟨hs, by simpa [EnumOK] using he⟩
  | enumDeliver =>
    simp only [step] at hstep
    cases hen : s.enumerator <;> simp only [hen] at hstep <;> try (simp at hstep; done)
    rename_i c
    simp only [EnumOK, hen] at he
    simp only [Outcome.ok.injEq] at hstep
    subst hstep
    cases c with
    | failed e => exact ⟨by simpa [EnumCmd.run] using hs, by simp [EnumOK]⟩
    | result bis => exact ⟨by simpa [EnumCmd.run] using he.2.2, by simp [EnumOK]⟩
  | clickChangeApp text =>
    simp only [step] at hstep
    split at hstep
    · rename_i hen
      simp only [Outcome.ok.injEq] at hstep
      subst hstep
      have hload : s.app.bak.loading = false := by
        simp only [changeAppEnabled, Bool.not_eq_true', Bool.or_eq_false_iff] at hen
        exact hen.1.1
      refine ⟨statsOK_setDomain text s.app, ?_⟩
      unfold EnumOK at he ⊢
      simp only at he ⊢
      split at he <;> simp_all
    · exact absurd hstep (by simp)
  | clickExport i createFile name env =>
    simp only [step] at hstep
    split at hstep
    · exact absurd hstep (by simp)
    · split at hstep
      · split at hstep <;>
        · simp only [Outcome.ok.injEq] at hstep
          subst hstep
          exact ⟨hs, he⟩
      · exact absurd hstep (by simp)
  | clickSetPassword i pass sp load =>
    simp only [step] at hstep
    split at hstep
    · exact absurd hstep (by simp)
    · rename_i b hb
      split at hstep
      · rename_i hen
        have hload : s.app.bak.loading = false := by
          simp only [itemsShown, Bool.and_eq_true, Bool.not_eq_true'] at hen
          exact hen.1.2
        have hk := unlockRequest_keeps i b true pass sp load
        have hmem : b ∈ s.app.bak.backups := List.getElem?_mem hb
        have hnew : StatsOK s.app.domain
            (s.app.bak.backups.set i (unlockRequest i b true pass sp load).1) := by
          apply statsOK_set _ _ _ _ hs
          intro hl
          rw [hk.2.1, hk.2.2.1, hk.2.2.2]
          exact hs b hmem (hk.1 ▸ hl)
        have hen1 : ∀ s2 : Sys, s2.enumerator = s.enumerator →
            s2.app.bak.loading = s.app.bak.loading → s2.app.domain = s.app.domain →
            EnumOK s2 := by
          intro s2 h1 h2 h3
          unfold EnumOK at he ⊢
          rw [h1]
          split at he <;> simp_all
        split at hstep <;>
        · simp only [Outcome.ok.injEq] at hstep
          subst hstep
          exact ⟨hnew, hen1 _ rfl rfl rfl⟩
      · exact absurd hstep (by simp)
  | workerStep w =>
    simp only [step] at hstep
    split at hstep
    · exact absurd hstep (by simp)
    · rename_i wk hwk
      split at hstep
      · exact absurd hstep (by simp)
      · rename_i c rest hsc
        split at hstep
        · rename_i a ha
          simp only [Outcome.ok.injEq] at hstep
          subst hstep
          simp only [App.runItemCmd, Option.map_eq_some'] at ha
          obtain ⟨bs, hbs, rfl⟩ := ha
          refine ⟨statsOK_updateItem _ _ (fun b b1 => itemCmd_keeps_stats c _ b b1) _ _ _ hbs hs,
            ?_⟩
          unfold EnumOK at he ⊢
          simp only at he ⊢
          split at he <;> simp_all [updateItem]
        · exact absurd hstep (by simp)
      · simp only [Outcome.ok.injEq] at hstep
        subst hstep
        exact ⟨hs, he⟩

/-! ### `zipApp`: the entries written -/

/-- The record loop of `zipApp` when no `zf.CreateHeader` on the remaining records fails. -/
theorem zipLoop_all_created (env : ZipEnv) (domain name : String) (l : List Record) (i : Nat)
    (st : ZipState)
    (h : ∀ p ∈ l.enumFrom i,
      env.CreateHeader p.1 { Name := env.Join name p.2.Path, Method := zipStore } = none) :
    (zipLoop env domain name i l st).1 = none ∧
    (zipLoop env domain name i l st).2.entries =
      st.entries ++ ((l.enumFrom i).filter fun p =>
        decide (p.2.Domain = domain) && decide (p.2.Length ≠ 0)
          && decide (env.FileReader p.1 p.2 = none)).map
        fun p => { Name := env.Join name p.2.Path, Method := zipStore } := by
  induction l generalizing i st with
  | nil => simp [zipLoop]
  | cons rc rest ih =>
    have hrest : ∀ p ∈ rest.enumFrom (i + 1),
        env.CreateHeader p.1 { Name := env.Join name p.2.Path, Method := zipStore } = none :=
      fun p hp => h p (by simp [List.enumFrom_cons, hp])
    have hhead : env.CreateHeader i { Name := env.Join name rc.Path, Method := zipStore } = none :=
      h (i, rc) (by simp [List.enumFrom_cons])
    by_cases hd : rc.Domain = domain
    · by_cases hl : rc.Length = 0
      · simp [zipLoop, hd, hl, ih (i + 1) st hrest, List.enumFrom_cons]
      · cases hf : env.FileReader i rc with
        | some e => simp [zipLoop, hd, hl, hf, ih (i + 1) st hrest, List.enumFrom_cons]
        | none =>
          simp [zipLoop, hd, hl, hf, hhead, ih (i + 1) _ hrest, List.enumFrom_cons]
    · have hb : (rc.Domain != domain) = true := by simpa using hd
      simp [zipLoop, hb, hd, ih (i + 1) st hrest, List.enumFrom_cons]

/-- C1: when every `zf.CreateHeader` and `zf.Close` succeed, `zipApp` returns
no error and the archive entries it creates are exactly, in record order, the
records of domain `"AppDomain-" + filter` with non-zero length whose content
stream opened, each named `path.Join(folderName, rec.Path)` with method Store;
a record whose stream cannot be opened gives no entry and does not stop the
export. -/
theorem zipApp_writes_selected (env : ZipEnv) (db : List Record) (filter folderName : String)
    (hHeader : ∀ p ∈ db.enum,
      env.CreateHeader p.1 { Name := env.Join folderName p.2.Path, Method := zipStore } = none)
    (hClose : env.Close = none) :
    (zipApp env db filter folderName).err = none ∧
    (zipApp env db filter folderName).st.entries =
      (selected env db filter).map
        fun p => { Name := env.Join folderName p.2.Path, Method := zipStore } := by
  have h := zipLoop_all_created env (domainPrefix ++ filter) folderName db 0
    { entries := [], total := 0, count := 0, sent := [] } hHeader
  unfold zipApp selected
  generalize hz : zipLoop env (domainPrefix ++ filter) folderName 0 db
    { entries := [], total := 0, count := 0, sent := [] } = z at h
  obtain ⟨e, st⟩ := z
  simp only at h
  obtain ⟨h1, h2⟩ := h
  subst h1
  simp [hClose, h2, List.enum]

/-- C1 at a concrete input: seven records, the stream of every third one
cannot be opened; the archive holds the three other non-empty records of
`com.foo`. -/
theorem zipApp_writes_selected_witness :
    (∀ p ∈ sampleRecords.enum, thirdFailsEnv.CreateHeader p.1
      { Name := thirdFailsEnv.Join "iPhone-20240101" p.2.Path, Method := zipStore } = none) ∧
    thirdFailsEnv.Close = none ∧
    (zipApp thirdFailsEnv sampleRecords "com.foo" "iPhone-20240101").err = none ∧
    (zipApp thirdFailsEnv sampleRecords "com.foo" "iPhone-20240101").st.entries =
      [⟨"iPhone-20240101/a.txt", 0⟩, ⟨"iPhone-20240101/d.txt", 0⟩,
       ⟨"iPhone-20240101/f.txt", 0⟩] :=
  ⟨fun _ _ => rfl, rfl,
   (zipApp_writes_selected thirdFailsEnv sampleRecords "com.foo" "iPhone-20240101"
      (fun _ _ => rfl) rfl).1,
   by decide⟩

/-! ### `stats` -/

/-- C2: `stats` returns as `files` the number of records whose `Domain` is
exactly `"AppDomain-" + f` (empty records included) and as `size` the sum of
their `Length` modulo `2 ^ 64`; a record of another domain changes neither. -/
theorem stats_counts_exact_domain (db : List Record) (f : String) :
    (stats db f).1 = (db.filter fun r => decide (r.Domain = domainPrefix ++ f)).length ∧
    (stats db f).2 =
      ((db.filter fun r => decide (r.Domain = domainPrefix ++ f)).map Record.Length).sum
        % 2 ^ 64 ∧
    ∀ (pre post : List Record) (r : Record), r.Domain ≠ domainPrefix ++ f →
      stats (pre ++ r :: post) f = stats (pre ++ post) f := by
  have hfst : ∀ l : List Record, (stats l f).1 =
      (l.filter fun r => decide (r.Domain = domainPrefix ++ f)).length := by
    intro l; simp [stats, statsLoop_fst]
  have hsnd : ∀ l : List Record, (stats l f).2 =
      ((l.filter fun r => decide (r.Domain = domainPrefix ++ f)).map Record.Length).sum
        % 2 ^ 64 := by
    intro l
    have := statsLoop_snd (domainPrefix ++ f) l (0, 0) (by norm_num)
    simpa [stats] using this
  refine ⟨hfst db, hsnd db, ?_⟩
  intro pre post r hr
  apply Prod.ext
  · rw [hfst, hfst]; simp [List.filter_append, List.filter_cons, hr]
  · rw [hsnd, hsnd]; simp [List.filter_append, List.filter_cons, hr]

/-! ### Statistics of loaded items follow the filter -/

/-- Every sequence of events keeps the invariant of `step_keeps_inv`. -/
theorem exec_keeps_inv (evs : List Event) (s s1 : Sys) (hexec : exec evs s = .ok s1)
    (hs : StatsOK s.app.domain s.app.bak.backups) (he : EnumOK s) :
    StatsOK s1.app.domain s1.app.bak.backups ∧ EnumOK s1 := by
  induction evs generalizing s with
  | nil =>
    simp only [exec, Outcome.ok.injEq] at hexec
    subst hexec
    exact ⟨hs, he⟩
  | cons ev rest ih =>
    simp only [exec] at hexec
    cases hst : step ev s with
    | ok s2 =>
      rw [hst] at hexec
      have h2 := step_keeps_inv ev s s2 hst hs he
      exact ih s2 hexec h2.1 h2.2
    | refused => rw [hst] at hexec; cases hexec
    | crashed => rw [hst] at hexec; cases hexec

/-- C9: the filter-change handler sets `domain` to `V` and leaves every loaded
item with `(files, totalSize) = stats Records V`; and in every state that the
event loop reaches from start-up, by any interleaving of filter changes,
the enumeration closure, load closures and the other events, every loaded item
carries the statistics of its records for the current value of `domain`. -/
theorem stats_follow_current_filter (a : App) (V : String) (evs : List Event) (s : Sys)
    (hreach : exec evs initial = .ok s) :
    (setDomain V a).domain = V ∧
    StatsOK V (setDomain V a).bak.backups ∧
    StatsOK s.app.domain s.app.bak.backups := by
  refine ⟨rfl, statsOK_setDomain V a, ?_⟩
  have hinit : StatsOK initial.app.domain initial.app.bak.backups :=
    fun b hb => absurd hb (List.not_mem_nil b)
  exact (exec_keeps_inv evs initial s hreach hinit ⟨rfl, rfl⟩).1

/-- C9 at a concrete input: discovery of one loaded backup followed by a
change of the filter to `com.foo`. -/
theorem stats_follow_current_filter_witness :
    exec (discoverLoaded sampleRecords ++ [Event.clickChangeApp "com.foo"]) initial
      = .ok sampleState ∧
    (setDomain "com.bar" sampleState.app).domain = "com.bar" ∧
    StatsOK "com.bar" (setDomain "com.bar" sampleState.app).bak.backups ∧
    StatsOK sampleState.app.domain sampleState.app.bak.backups :=
  ⟨rfl, stats_follow_current_filter sampleState.app "com.bar"
    (discoverLoaded sampleRecords ++ [Event.clickChangeApp "com.foo"]) sampleState rfl⟩

/-! ### Unlocking an encrypted backup -/

/-- C8: for an encrypted item awaiting a password, an unlock with a non-empty
password that the handle rejects stores the handle's error in `passwordError`,
leaves the load status `NotLoaded` and starts no goroutine; a following unlock
with a non-empty accepted password clears `passwordError` and starts a
goroutine whose two closures, run in order, make the status `Loading` and then
`Loaded` with `files`/`totalSize` the statistics of the loaded records for the
value `d2` that `domain` has when the completion closure runs, or
`LoadFailed err` when the load fails.  The status is the one displayed: after a
failed load the flag `loading` itself is still set, hidden by the error. -/
theorem unlock_wrong_then_right (i : Nat) (b : backupItem) (pass1 pass2 : String)
    (e1 : GoError) (load1 load2 : LoadOutcome) (d1 d2 : String)
    (hloaded : b.loaded = false) (hloading : b.loading = false)
    (herr : b.loadingError = none) (_henc : b.IsEncrypted = true)
    (hp1 : pass1 ≠ "") (hp2 : pass2 ≠ "") :
    (unlockRequest i b true pass1 (some e1) load1).1.passwordError = some e1 ∧
    loadStatus (unlockRequest i b true pass1 (some e1) load1).1 = .NotLoaded ∧
    (unlockRequest i b true pass1 (some e1) load1).2.isNone = true ∧
    ∃ b2 b3 b4 : backupItem,
      unlockRequest i (unlockRequest i b true pass1 (some e1) load1).1 true pass2 none load2 =
        (b2, some { item := i, script := [.send .loadStart, .send (.loadDone load2)] }) ∧
      b2.passwordError = none ∧ loadStatus b2 = .NotLoaded ∧
      ItemCmd.loadStart.run d1 b2 = some b3 ∧ loadStatus b3 = .Loading ∧
      (ItemCmd.loadDone load2).run d2 b3 = some b4 ∧
      match load2 with
      | .ok records =>
        loadStatus b4 = .Loaded ∧ b4.Records = records ∧
          (b4.files, b4.totalSize) = stats records d2 ∧ b4.passwordError = none
      | .failed err => loadStatus b4 = .LoadFailed err ∧ loadStatus b4 ≠ .Loading := by
  have h1 : (pass1 != "") = true := by simpa using hp1
  have h2 : (pass2 != "") = true := by simpa using hp2
  refine ⟨by simp [unlockRequest, h1], by simp [unlockRequest, h1, loadStatus, hloaded, hloading, herr],
    by simp [unlockRequest, h1], ?_⟩
  refine ⟨_, _, _, by simp only [unlockRequest, h1, h2, if_true]; rfl, rfl,
    by simp [loadStatus, hloaded, hloading, herr], rfl,
    by simp [loadStatus, backupItem.loadStart], rfl, ?_⟩
  cases load2 with
  | ok records => simp [loadStatus, backupItem.loadStart, backupItem.loadDone]
  | failed err => simp [loadStatus, backupItem.loadStart, backupItem.loadDone]

/-- C8 at a concrete input: the password `wrong` is rejected, `right` is
accepted and the load finds `sampleRecords` while the filter is `com.foo`. -/
theorem unlock_wrong_then_right_witness :
    lockedItem.loaded = false ∧ lockedItem.loading = false ∧ lockedItem.loadingError = none ∧
    lockedItem.IsEncrypted = true ∧ "wrong" ≠ "" ∧ "right" ≠ "" ∧
    (unlockRequest 0 lockedItem true "wrong" (some "bad password") (.failed "unused")).1.passwordError
      = some "bad password" ∧
    loadStatus (unlockRequest 0 lockedItem true "wrong" (some "bad password")
      (.failed "unused")).1 = .NotLoaded ∧
    (unlockRequest 0 lockedItem true "wrong" (some "bad password") (.failed "unused")).2.isNone
      = true ∧
    ∃ b2 b3 b4 : backupItem,
      unlockRequest 0 (unlockRequest 0 lockedItem true "wrong" (some "bad password")
          (.failed "unused")).1 true "right" none (.ok sampleRecords) =
        (b2, some { item := 0,
                    script := [.send .loadStart, .send (.loadDone (.ok sampleRecords))] }) ∧
      b2.passwordError = none ∧ loadStatus b2 = .NotLoaded ∧
      ItemCmd.loadStart.run initialDomain b2 = some b3 ∧ loadStatus b3 = .Loading ∧
      (ItemCmd.loadDone (.ok sampleRecords)).run "com.foo" b3 = some b4 ∧
      loadStatus b4 = .Loaded ∧ b4.Records = sampleRecords ∧
      (b4.files, b4.totalSize) = stats sampleRecords "com.foo" ∧ b4.passwordError = none :=
  ⟨rfl, rfl, rfl, rfl, by decide, by decide,
   unlock_wrong_then_right 0 lockedItem "wrong" "right" "bad password" (.failed "unused")
     (.ok sampleRecords) initialDomain "com.foo" rfl rfl rfl rfl (by decide) (by decide)⟩

/-! ### Export requests -/

/-- Running a closure on the item at position `i` replaces that item. -/
theorem updateItem_at (f : backupItem → Option backupItem) (i : Nat) (bs : List backupItem)
    (b b1 : backupItem) (hb : bs[i]? = some b) (hf : f b = some b1) :
    ∃ bs1, updateItem f i bs = some bs1 ∧ bs1[i]? = some b1 := by
  induction bs generalizing i with
  | nil => simp at hb
  | cons x rest ih =>
    cases i with
    | zero =>
      simp only [List.getElem?_cons_zero, Option.some.injEq] at hb
      subst hb
      exact ⟨b1 :: rest, by simp [updateItem, hf], by simp⟩
    | succ j =>
      simp only [List.getElem?_cons_succ] at hb
      obtain ⟨r1, h1, h2⟩ := ih j hb
      exact ⟨x :: r1, by simp [updateItem, h1], by simpa using h2⟩

/-- The displayed export status is Exporting only when `saving` is set. -/
theorem exportStatus_exporting (b : backupItem) (p : Nat)
    (h : exportStatus b = .Exporting p) : b.saving = true := by
  unfold exportStatus at h
  by_cases hs : b.saving = true
  · exact hs
  · simp only [hs] at h
    by_cases hd : b.saved = true
    · simp [hd] at h
    · simp only [hd] at h
      cases he : b.savingError <;> simp [he] at h

/-- The displayed export status is Exported or ExportFailed only when `saving` is unset. -/
theorem exportStatus_not_saving (b : backupItem)
    (h : exportStatus b = .Exported ∨ ∃ e, exportStatus b = .ExportFailed e) :
    b.saving = false := by
  cases hs : b.saving with
  | false => rfl
  | true =>
    rcases h with h | ⟨e, h⟩ <;> simp [exportStatus, hs] at h

/-- C5: for a loaded item whose export status is Exporting the Export button
is drawn disabled and an export request is refused: no goroutine is started,
hence no second destination file and no second archive write, and the state
is unchanged.  For a loaded item displayed with files, whose status is
Exported or ExportFailed, a request whose destination file is created is
accepted: it starts one export goroutine, and the start closure of that
goroutine makes the status Exporting again with `savingError` and `saved`
cleared. -/
theorem export_request_gated_by_saving (s : Sys) (i : Nat) (b : backupItem)
    (createFile : Option GoError) (name : String) (env : ZipEnv)
    (hitem : s.app.bak.backups[i]? = some b) (hloaded : b.loaded = true) :
    ((∃ p, exportStatus b = .Exporting p) →
      exportEnabled b = false ∧
      step (.clickExport i createFile name env) s = .refused) ∧
    ((exportStatus b = .Exported ∨ ∃ e, exportStatus b = .ExportFailed e) →
      itemsShown s.app = true → b.loadingError = none → 0 < b.files →
      ∃ s1 s2 b2,
        step (.clickExport i none name env) s = .ok s1 ∧
        s1.app = s.app ∧
        s1.workers = s.workers ++ [{ item := i, script := [.send .exportStart, .zip name env] }] ∧
        step (.workerStep s.workers.length) s1 = .ok s2 ∧
        s2.app.bak.backups[i]? = some b2 ∧
        exportStatus b2 = .Exporting b.savingPercent ∧
        b2.savingError = none ∧ b2.saved = false ∧ b2.loaded = true) := by
  constructor
  · rintro ⟨p, hp⟩
    have hs := exportStatus_exporting b p hp
    have hen : exportEnabled b = false := by simp [exportEnabled, hs]
    exact ⟨hen, by simp [step, hitem, hen]⟩
  · intro hst hshown herr hfiles
    have hs := exportStatus_not_saving b hst
    have hen : exportEnabled b = true := by
      simp [exportEnabled, hs, herr, hloaded, hfiles]
    obtain ⟨bs1, hbs1, hget⟩ := updateItem_at (ItemCmd.exportStart.run s.app.domain) i
      s.app.bak.backups b b.exportStart hitem rfl
    refine ⟨{ s with workers := s.workers ++
        [{ item := i, script := [.send .exportStart, .zip name env] }] },
      { s with
        app := { s.app with bak := { s.app.bak with backups := bs1 } }
        workers := setScript (s.workers ++
          [{ item := i, script := [.send .exportStart, .zip name env] }]) s.workers.length
          [.zip name env] },
      b.exportStart, ?_, rfl, rfl, ?_, hget, ?_, rfl, rfl, hloaded⟩
    · simp [step, hitem, hen, hshown, exportRequest, hloaded]
    · simp [step, App.runItemCmd, hbs1]
    · simp [exportStatus, backupItem.exportStart]

/-- C5 at concrete inputs: a request during a running export is refused, a
request after a successful export starts a goroutine and its start closure
makes the item Exporting again. -/
theorem export_request_gated_by_saving_witness :
    (runningState.app.bak.backups[0]? = some
        { newItem with Records := xinRecords 1, files := 1, totalSize := 1,
                       loaded := true, saving := true } ∧
      exec runningExport initial = .ok runningState ∧
      step (.clickExport 0 none "bk2" okEnv) runningState = .refused) ∧
    (exec successfulExport initial = .ok exportedState ∧
      ∃ s1 s2 b2,
        step (.clickExport 0 none "bk2" okEnv) exportedState = .ok s1 ∧
        s1.app = exportedState.app ∧
        s1.workers = exportedState.workers ++
          [{ item := 0, script := [.send .exportStart, .zip "bk2" okEnv] }] ∧
        step (.workerStep exportedState.workers.length) s1 = .ok s2 ∧
        s2.app.bak.backups[0]? = some b2 ∧
        exportStatus b2 = .Exporting 0 ∧
        b2.savingError = none ∧ b2.saved = false ∧ b2.loaded = true) :=
  ⟨⟨rfl, rfl,
    ((export_request_gated_by_saving runningState 0 _ none "bk2" okEnv rfl rfl).1
      ⟨0, rfl⟩).2⟩,
   rfl,
   (export_request_gated_by_saving exportedState 0
      { newItem with Records := xinRecords 1, files := 1, totalSize := 1,
                     loaded := true, saved := true } none "bk2" okEnv rfl rfl).2
      (Or.inl rfl) rfl rfl (by decide)⟩

/-! ### Progress of an export -/

/-- The counts at which `zipApp` sends a progress closure are positive,
increasing, and bounded by `count`, which is bounded by the number of records
of the domain. -/
theorem zipLoop_progress (env : ZipEnv) (domain name : String) (l : List Record) (i : Nat)
    (st : ZipState) (hle : ∀ c ∈ st.sent, 0 < c ∧ c ≤ st.count) (hsorted : st.sent.Pairwise (· < ·)) :
    (∀ c ∈ (zipLoop env domain name i l st).2.sent,
      0 < c ∧ c ≤ (zipLoop env domain name i l st).2.count) ∧
    (zipLoop env domain name i l st).2.sent.Pairwise (· < ·) ∧
    (zipLoop env domain name i l st).2.count ≤
      st.count + (l.filter fun r => decide (r.Domain = domain)).length := by
  induction l generalizing i st with
  | nil => exact ⟨hle, hsorted, by simp [zipLoop]⟩
  | cons rc rest ih =>
    have hskip : (∀ c ∈ (zipLoop env domain name (i + 1) rest st).2.sent,
          0 < c ∧ c ≤ (zipLoop env domain name (i + 1) rest st).2.count) ∧
        (zipLoop env domain name (i + 1) rest st).2.sent.Pairwise (· < ·) ∧
        (zipLoop env domain name (i + 1) rest st).2.count ≤
          st.count + ((rc :: rest).filter fun r => decide (r.Domain = domain)).length := by
      obtain ⟨h1, h2, h3⟩ := ih (i + 1) st hle hsorted
      refine ⟨h1, h2, le_trans h3 ?_⟩
      simp only [List.filter_cons]
      split <;> simp
    by_cases hd : rc.Domain = domain
    · by_cases hl : rc.Length = 0
      · simpa [zipLoop, hd, hl] using hskip
      · cases hf : env.FileReader i rc with
        | some e => simpa [zipLoop, hd, hl, hf] using hskip
        | none =>
          cases hh : env.CreateHeader i { Name := env.Join name rc.Path, Method := zipStore } with
          | some e =>
            simp only [zipLoop, hd, bne_self_eq_false, Bool.false_eq_true, if_false, hl,
              beq_iff_eq, hf, hh]
            exact ⟨hle, hsorted, by omega⟩
          | none =>
            simp only [zipLoop, hd, bne_self_eq_false, Bool.false_eq_true, if_false, hl,
              beq_iff_eq, hf, hh]
            have hle1 : ∀ c ∈ (if (st.count + 1) % 500 = 0 then st.sent ++ [st.count + 1]
                else st.sent), 0 < c ∧ c ≤ st.count + 1 := by
              intro c hc
              split at hc
              · rcases List.mem_append.mp hc with h | h
                · exact ⟨(hle c h).1, Nat.le_succ_of_le (hle c h).2⟩
                · simp only [List.mem_singleton] at h; omega
              · exact ⟨(hle c hc).1, Nat.le_succ_of_le (hle c hc).2⟩
            have hsorted1 : (if (st.count + 1) % 500 = 0 then st.sent ++ [st.count + 1]
                else st.sent).Pairwise (· < ·) := by
              split
              · refine List.pairwise_append.mpr ⟨hsorted, List.pairwise_singleton _ _, ?_⟩
                intro a ha c hc
                simp only [List.mem_singleton] at hc
                have := (hle a ha).2
                omega
              · exact hsorted
            obtain ⟨h1, h2, h3⟩ := ih (i + 1)
              { entries := st.entries ++ [{ Name := env.Join name rc.Path, Method := zipStore }]
                total := st.total + env.Copy i rc
                count := st.count + 1
                sent := if (st.count + 1) % 500 = 0 then st.sent ++ [st.count + 1]
                  else st.sent } hle1 hsorted1
            refine ⟨h1, h2, le_trans h3 ?_⟩
            simp only [hd, decide_True, List.filter_cons_of_pos, List.length_cons]
            omega
    · have hb : (rc.Domain != domain) = true := by simpa using hd
      simpa [zipLoop, hb] using hskip

/-- Without a filter change during the run: while `files` is the statistic of
the exported records for the filter given to `zipApp`, no progress closure
panics, every percentage is at most 100 and the percentages are
non-decreasing. -/
theorem progress_percent_with_fixed_filter (env : ZipEnv) (db : List Record)
    (filter name : String) (b : backupItem) (hfiles : b.files = (stats db filter).1) :
    (∀ c ∈ (zipApp env db filter name).st.sent,
      ∃ b1, b.exportProgress c = some b1 ∧ b1.savingPercent = c * 100 / b.files ∧
        b1.savingPercent ≤ 100) ∧
    ((zipApp env db filter name).st.sent.map fun c => c * 100 / b.files).Pairwise (· ≤ ·) := by
  have h := zipLoop_progress env (domainPrefix ++ filter) name db 0
    { entries := [], total := 0, count := 0, sent := [] }
    (fun c hc => absurd hc (List.not_mem_nil c)) List.Pairwise.nil
  have hst : (zipApp env db filter name).st =
      (zipLoop env (domainPrefix ++ filter) name 0 db
        { entries := [], total := 0, count := 0, sent := [] }).2 := by
    unfold zipApp
    split
    · rename_i heq; rw [heq]
    · rename_i heq; rw [heq]; split <;> rfl
  rw [hst]
  obtain ⟨h1, h2, h3⟩ := h
  have hcount : ∀ c ∈ (zipLoop env (domainPrefix ++ filter) name 0 db
      { entries := [], total := 0, count := 0, sent := [] }).2.sent, 0 < c ∧ c ≤ b.files := by
    intro c hc
    have := h1 c hc
    have hf : (stats db filter).1 =
        (db.filter fun r => decide (r.Domain = domainPrefix ++ filter)).length := by
      simp [stats, statsLoop_fst]
    simp only [Nat.zero_add] at h3
    omega
  constructor
  · intro c hc
    obtain ⟨hpos, hcf⟩ := hcount c hc
    have hne : b.files ≠ 0 := by omega
    refine ⟨{ b with savingPercent := c * 100 / b.files }, by simp [backupItem.exportProgress, hne],
      rfl, ?_⟩
    exact Nat.div_le_of_le_mul (by nlinarith)
  · rw [List.pairwise_map]
    exact h2.imp fun hab => Nat.div_le_div_right (Nat.mul_le_mul_right 100 (Nat.le_of_lt hab))

/-! ### Executions in which the code departs from its specification -/

/-- C3 (defect of lines 200-207): in an export whose `zf.CreateHeader` fails,
`zipApp` returns the error and the completion closure stores it in
`savingError` with `saved` unset, but leaves `saving` set: the item is still
displayed as exporting, not as failed.  The same holds from any item state. -/
theorem failed_export_stays_saving :
    (zipApp headerFailsEnv (xinRecords 1) initialDomain "bk").err = some "disk full" ∧
    ((exec failedExport initial).item? 0).map
        (fun b => (b.saving, b.saved, b.savingError, exportStatus b)) =
      some (true, false, some "disk full", .Exporting 0) ∧
    ∀ (b : backupItem) (e : GoError),
      (b.exportStart.exportDone (some e)).saving = true ∧
      exportStatus (b.exportStart.exportDone (some e)) ≠ .ExportFailed e := by
  refine ⟨by decide, by decide, ?_⟩
  intro b e
  simp [backupItem.exportStart, backupItem.exportDone, exportStatus]

/-- C4 (defect of lines 215-242): two unlock requests are accepted before the
first load-start closure is received; the first load completes, an export is
requested and started, and the load-start closure of the second goroutine
then clears `loaded` while `saving` is set. -/
theorem exporting_while_not_loaded :
    ((exec doubleUnlock initial).item? 0).map (fun b => (b.saving, b.loaded, b.loading)) =
      some (true, false, true) := by
  decide

set_option maxRecDepth 1000000 in
/-- C6 (defect of lines 359-361): in one run of `zipApp` over 1500 records the
three progress closures divide by the value `bi.files` has when they run; with
the filter changed to an application with one record and back, the
percentages set are 33, 100000 and 100: above 100, and not non-decreasing. -/
theorem progress_percent_follows_live_count :
    [8, 10, 12].map (fun n => ((exec (progressRun.take n) initial).item? 0).map
        fun b => (b.files, b.savingPercent)) =
      [some (1500, 33), some (1, 100000), some (1500, 100)] := by
  decide

set_option maxRecDepth 1000000 in
/-- C7 (defect of lines 359-361): during an export of 500 records the filter is
changed to an application without records, so `files` of the loaded, saving
item becomes 0; the progress closure sent at the 500th record then divides by
zero inside the event loop. -/
theorem progress_closure_panics_after_filter_change :
    ((exec filterChangeDuringExport initial).item? 0).map
        (fun b => (b.loaded, b.saving, b.files)) = some (true, true, 0) ∧
    (exec (filterChangeDuringExport ++ [.workerStep 0]) initial).isCrashed = true := by
  refine ⟨by decide, by decide⟩

end Ibe
